import Mathlib

/-!
Shallow embedding of the `taxmat` staking-reward CSV converter
(src/main.rs, src/formats.rs, src/opt.rs) and proofs about its
record-transformation pipeline.

Modelling conventions:
- Rust `f64` amounts are carried as `Rat`: the program never performs
  arithmetic on amounts, it only moves them from input to output records.
- `chrono::NaiveDateTime` is a record of calendar fields; its ordering is
  lexicographic, which agrees with chrono on all valid date-times (the only
  ones the program ever constructs or compares).
- `panic!` and propagated `Err` both abort the run; both are modelled as
  `Except.error` with the corresponding message.
- The CSV writer is modelled as the list of rows the source code explicitly
  writes: `write_record` appends a `Written.header` row and
  `wtr.serialize(record)` appends a `Written.record` row.
-/

/-- Calendar date, mirroring `chrono::NaiveDate` (year, month, day). -/
structure NaiveDate where
  year : Int
  month : Nat
  day : Nat
deriving DecidableEq, Repr

/-- Date-time with second precision, mirroring `chrono::NaiveDateTime`. -/
structure NaiveDateTime where
  year : Int
  month : Nat
  day : Nat
  hour : Nat
  minute : Nat
  second : Nat
deriving DecidableEq, Repr

/-- Leap-year test used by chrono for calendar validation. -/
def isLeapYear (y : Int) : Bool :=
  y % 4 == 0 && (y % 100 != 0 || y % 400 == 0)

/-- Number of days in a month of a given year (0 for an invalid month). -/
def daysInMonth (y : Int) (m : Nat) : Nat :=
  match m with
  | 1 => 31
  | 2 => if isLeapYear y then 29 else 28
  | 3 => 31
  | 4 => 30
  | 5 => 31
  | 6 => 30
  | 7 => 31
  | 8 => 31
  | 9 => 30
  | 10 => 31
  | 11 => 30
  | 12 => 31
  | _ => 0

/-- Mirrors `chrono::NaiveDate::from_ymd_opt`: the date must be a valid
calendar date and the year must lie in the range chrono can represent. -/
def NaiveDate.from_ymd_opt (y : Int) (m d : Nat) : Option NaiveDate :=
  if -262144 ≤ y ∧ y ≤ 262143 ∧ 1 ≤ m ∧ m ≤ 12 ∧ 1 ≤ d ∧ d ≤ daysInMonth y m then
    some ⟨y, m, d⟩
  else
    none

/-- Mirrors `chrono::NaiveDate::and_hms_opt`: attach a valid time of day. -/
def NaiveDate.and_hms_opt (dt : NaiveDate) (h mi s : Nat) : Option NaiveDateTime :=
  if h ≤ 23 ∧ mi ≤ 59 ∧ s ≤ 59 then
    some ⟨dt.year, dt.month, dt.day, h, mi, s⟩
  else
    none

/-- Chronological order on date-times: lexicographic on the calendar
fields, matching the `Ord` of `chrono::NaiveDateTime` on valid values. -/
def NaiveDateTime.le (a b : NaiveDateTime) : Bool :=
  if a.year ≠ b.year then decide (a.year < b.year)
  else if a.month ≠ b.month then decide (a.month < b.month)
  else if a.day ≠ b.day then decide (a.day < b.day)
  else if a.hour ≠ b.hour then decide (a.hour < b.hour)
  else if a.minute ≠ b.minute then decide (a.minute < b.minute)
  else decide (a.second ≤ b.second)

/-- Value of an ASCII digit character, `none` otherwise. -/
def digitVal (c : Char) : Option Nat :=
  if c.isDigit then some (c.toNat - 48) else none

/-- Two-digit decimal field of a timestamp string. -/
def twoDigits (a b : Char) : Option Nat :=
  match digitVal a, digitVal b with
  | some x, some y => some (10 * x + y)
  | _, _ => none

/-- Mirrors `NaiveDateTime::parse_from_str(s, "%Y-%m-%d %H:%M:%S")`:
a four-digit year, two-digit month, day, hour, minute and second with the
fixed separators, validated as a real calendar date and time of day. -/
def parseDateTime (s : String) : Option NaiveDateTime :=
  match s.data with
  | [y1, y2, y3, y4, '-', m1, m2, '-', d1, d2, ' ',
     h1, h2, ':', i1, i2, ':', s1, s2] =>
    match twoDigits y1 y2, twoDigits y3 y4, twoDigits m1 m2, twoDigits d1 d2,
          twoDigits h1 h2, twoDigits i1 i2, twoDigits s1 s2 with
    | some yh, some yl, some mo, some da, some ho, some mi, some se =>
      match NaiveDate.from_ymd_opt (Int.ofNat (yh * 100 + yl)) mo da with
      | some dt => dt.and_hms_opt ho mi se
      | none => none
    | _, _, _, _, _, _, _ => none
  | _ => none

/-- Rust `str::to_lowercase` as used by the program: all strings it is
applied to are compared against ASCII alias tables. -/
def to_lowercase (s : String) : String :=
  ⟨s.data.map Char.toLower⟩

/-- The supported asset symbols (`enum Coin` in src/formats.rs). -/
inductive Coin where
  | DOT
  | KSM
  | ATOM
  | ETH
  | SOL
  | KAVA
  | ADA
  | XTZ
deriving DecidableEq, Repr

/-- The name of a coin variant, as the serde-derived serializer renders it. -/
def Coin.name : Coin → String
  | .DOT => "DOT"
  | .KSM => "KSM"
  | .ATOM => "ATOM"
  | .ETH => "ETH"
  | .SOL => "SOL"
  | .KAVA => "KAVA"
  | .ADA => "ADA"
  | .XTZ => "XTZ"

/-- Mirrors `impl FromStr for Coin`: lowercase the string and match the
alias table; the catch-all arm of the source panics, modelled as `none`. -/
def Coin.fromStrOpt (s : String) : Option Coin :=
  match to_lowercase s with
  | "dot" => some .DOT
  | "dot.s" => some .DOT
  | "ksm" => some .KSM
  | "ksm.s" => some .KSM
  | "atom" => some .ATOM
  | "atom.s" => some .ATOM
  | "eth" => some .ETH
  | "eth.s" => some .ETH
  | "eth2" => some .ETH
  | "eth2.s" => some .ETH
  | "sol" => some .SOL
  | "sol.s" => some .SOL
  | "kava" => some .KAVA
  | "kava.s" => some .KAVA
  | "ada" => some .ADA
  | "ada.s" => some .ADA
  | "xtz" => some .XTZ
  | "xtz.s" => some .XTZ
  | _ => none

/-- Mirrors `impl Into<String> for Coin`; note the asymmetric DOT case. -/
def Coin.intoString : Coin → String
  | .DOT => "DOT2"
  | .KSM => "KSM"
  | .ATOM => "ATOM"
  | .ETH => "ETH"
  | .SOL => "SOL"
  | .KAVA => "KAVA"
  | .ADA => "ADA"
  | .XTZ => "XTZ"

/-- Settlement currencies (`enum Currency` in src/formats.rs). -/
inductive Currency where
  | USD
  | GBP
  | EUR
deriving DecidableEq, Repr

/-- Fiscal-quarter selector (`enum Quarter` in src/formats.rs). -/
inductive Quarter where
  | Q1
  | Q2
  | Q3
  | Q4
  | ALL
deriving DecidableEq, Repr

/-- Output schema selector (`enum OutputFormat` in src/formats.rs). -/
inductive OutputFormat where
  | BitcoinTax
  | CoinTracking
deriving DecidableEq, Repr

/-- Explorer-style input row (`struct Subscan`). -/
structure Subscan where
  event_id : String
  date : String
  block : Nat
  extrinsic : String
  amount : Rat
  action : String
deriving DecidableEq, Repr

/-- Exchange-style input row (`struct Kraken`). -/
structure Kraken where
  txid : String
  refid : String
  date : String
  action : String
  aclass : String
  asset : String
  amount : Rat
  fee : Rat
deriving DecidableEq, Repr

/-- Aggregator-style input row (`struct StakeTax`). -/
structure StakeTax where
  timestamp : String
  tx_type : String
  taxable : Bool
  received_amount : Option Rat
  received_currency : String
  sent_amount : Option Rat
  sent_currency : String
  fee : Option Rat
  fee_currency : String
  comment : String
  tx_id : String
  url : String
  exchange : String
  wallet_address : String
deriving DecidableEq, Repr

/-- The `InputRecord` trait of src/formats.rs. -/
class InputRecord (α : Type) where
  get_date : α → String
  get_amount : α → Rat

instance : InputRecord Subscan where
  get_date r := r.date
  get_amount r := r.amount

instance : InputRecord Kraken where
  get_date r := r.date
  get_amount r := r.amount

/-- `StakeTax::get_amount`: the received amount, or zero when missing. -/
def StakeTax.get_amount (r : StakeTax) : Rat :=
  match r.received_amount with
  | some amount => amount
  | none => 0

instance : InputRecord StakeTax where
  get_date r := r.timestamp
  get_amount r := r.get_amount

/-- Simple-income output row (`struct BitcoinTax`). -/
structure BitcoinTax where
  date : NaiveDateTime
  action : String
  account : String
  symbol : Coin
  volume : Rat
deriving DecidableEq, Repr

/-- `BitcoinTax::create`: fixed action label and an account label derived
from the symbol through `Into<String> for Coin`. -/
def BitcoinTax.create (date : NaiveDateTime) (volume : Rat) (symbol : Coin) :
    BitcoinTax :=
  let coin : String := symbol.intoString
  let account := coin ++ " STAKING"
  { date := date
    action := "INCOME"
    account := account
    symbol := symbol
    volume := volume }

/-- Ledger-style output row (`struct CoinTracking`). -/
structure CoinTracking where
  tx_type : String
  buy_amount : Rat
  buy_currency : String
  sell_amount : Rat
  sell_currency : Currency
  fee : Rat
  fee_currency : Currency
  exchange : String
  trade_group : String
  comment : String
  date : NaiveDateTime
  tx_id : String
  buy_value : Rat
deriving DecidableEq, Repr

/-- `CoinTracking::create`: income row with zero/default sale, fee and
valuation fields. -/
def CoinTracking.create (buy_amount : Rat) (buy_currency : String)
    (trade_group : String) (comment : String) (date : NaiveDateTime) :
    CoinTracking :=
  { tx_type := "Income"
    buy_amount := buy_amount
    buy_currency := buy_currency
    sell_amount := 0
    sell_currency := Currency.USD
    fee := 0
    fee_currency := Currency.USD
    exchange := ""
    trade_group := trade_group
    comment := comment
    date := date
    tx_id := ""
    buy_value := 0 }

/-- Output record wrapper (`enum OutputRecord`). -/
inductive OutputRecord where
  | BT (rec : BitcoinTax)
  | CT (rec : CoinTracking)
deriving DecidableEq, Repr

/-- A row emitted to the output CSV writer: either an explicitly written
header row or a serialized output record. -/
inductive Written where
  | header (fields : List String)
  | record (rec : OutputRecord)
deriving DecidableEq, Repr

/-- Whether an emitted row is a header row. -/
def Written.isHeaderRow : Written → Bool
  | .header _ => true
  | .record _ => false

/-- Error check for pipeline results. -/
def exceptIsError {ε α : Type} : Except ε α → Bool
  | .error _ => true
  | .ok _ => false

/-- Mirrors `get_date_range` in src/main.rs: resolve the year (explicit or
current), look the quarter up in the fixed month/day table, and build the
inclusive window from midnight of the start date to 23:59:59 of the end
date. -/
def get_date_range (yearOpt : Option Int) (currentYear : Int) (q : Quarter) :
    Except String (NaiveDateTime × NaiveDateTime) :=
  let year := match yearOpt with
    | some y => y
    | none => currentYear
  let startMD : Nat × Nat := match q with
    | .Q1 => (1, 1)
    | .Q2 => (4, 1)
    | .Q3 => (7, 1)
    | .Q4 => (10, 1)
    | .ALL => (1, 1)
  let endMD : Nat × Nat := match q with
    | .Q1 => (3, 31)
    | .Q2 => (6, 30)
    | .Q3 => (9, 30)
    | .Q4 => (12, 31)
    | .ALL => (12, 31)
  match NaiveDate.from_ymd_opt year startMD.1 startMD.2 with
  | none => .error "failed to create ymd"
  | some sd =>
    match sd.and_hms_opt 0 0 0 with
    | none => .error "failed to create hms"
    | some start_date =>
      match NaiveDate.from_ymd_opt year endMD.1 endMD.2 with
      | none => .error "failed to create ymd"
      | some ed =>
        match ed.and_hms_opt 23 59 59 with
        | none => .error "failed to create hms"
        | some end_date => .ok (start_date, end_date)

/-- Header row written by `parse_records` for each output schema. -/
def headerFor : OutputFormat → List String
  | .BitcoinTax => ["Date", "Action", "Account", "Symbol", "Volume"]
  | .CoinTracking =>
    ["Type", "Buy Amount", "Buy Currency", "Sell Amount", "Sell Currency",
     "Fee", "Fee Currency", "Exchange", "Trade-Group", "Comment", "Date",
     "Tx-ID", "Buy Value in Account Currency"]

/-- Body of the `parse_records` loop for one row: parse the timestamp
(failure aborts the run), test the inclusive date window, and build the
output record for the selected schema; `ok none` is a silently skipped
row. -/
def processRecordsRow {α : Type} [InputRecord α] (fmt : OutputFormat)
    (coin : Coin) (start_date end_date : NaiveDateTime) (r : α) :
    Except String (Option OutputRecord) :=
  match parseDateTime (InputRecord.get_date r) with
  | none => .error "input contains a malformed timestamp"
  | some date =>
    if NaiveDateTime.le start_date date && NaiveDateTime.le date end_date then
      match fmt with
      | .BitcoinTax =>
        .ok (some (.BT (BitcoinTax.create date (InputRecord.get_amount r) coin)))
      | .CoinTracking =>
        .ok (some (.CT (CoinTracking.create (InputRecord.get_amount r)
          coin.intoString "Polkadot Staking" "Self-Staking" date)))
    else
      .ok none

/-- Body of the `parse_staketax` loop for one row: window test plus the
exact `tx_type == "STAKING"` filter; a ledger-style output selection
reaches the `panic!("Not currently supported")` arm. -/
def processStakeTaxRow (fmt : OutputFormat) (coin : Coin)
    (start_date end_date : NaiveDateTime) (r : StakeTax) :
    Except String (Option OutputRecord) :=
  match parseDateTime (InputRecord.get_date r) with
  | none => .error "input contains a malformed timestamp"
  | some date =>
    if NaiveDateTime.le start_date date && NaiveDateTime.le date end_date
        && (r.tx_type == "STAKING") then
      match fmt with
      | .BitcoinTax =>
        .ok (some (.BT (BitcoinTax.create date (InputRecord.get_amount r) coin)))
      | .CoinTracking => .error "Not currently supported"
    else
      .ok none

/-- Body of the `parse_kraken_file` loop for one row: window test plus the
exact `action == "staking"` filter; only then is the per-row asset symbol
parsed (an unknown symbol aborts the run), and a ledger-style output
selection reaches the `panic!("Not currently supported")` arm. -/
def processKrakenRow (fmt : OutputFormat)
    (start_date end_date : NaiveDateTime) (r : Kraken) :
    Except String (Option OutputRecord) :=
  match parseDateTime (InputRecord.get_date r) with
  | none => .error "input contains a malformed timestamp"
  | some date =>
    if NaiveDateTime.le start_date date && NaiveDateTime.le date end_date
        && (r.action == "staking") then
      match Coin.fromStrOpt r.asset with
      | none => .error "Invalid coin type!"
      | some coin =>
        match fmt with
        | .BitcoinTax =>
          .ok (some (.BT (BitcoinTax.create date (InputRecord.get_amount r) coin)))
        | .CoinTracking => .error "Not currently supported"
    else
      .ok none

/-- Run a per-row body over the whole input, collecting the serialized
records in order; the first row-level error aborts the run. -/
def runRows {α : Type} (f : α → Except String (Option OutputRecord)) :
    List α → Except String (List Written)
  | [] => .ok []
  | r :: rs =>
    match f r with
    | .error msg => .error msg
    | .ok none => runRows f rs
    | .ok (some rec) =>
      match runRows f rs with
      | .error msg => .error msg
      | .ok ws => .ok (Written.record rec :: ws)

/-- Mirrors `parse_records` in src/main.rs: resolve the window, write the
schema header row, then stream the rows. -/
def parse_records {α : Type} [InputRecord α] (fmt : OutputFormat)
    (coin : Coin) (yearOpt : Option Int) (currentYear : Int) (q : Quarter)
    (rows : List α) : Except String (List Written) :=
  match get_date_range yearOpt currentYear q with
  | .error msg => .error msg
  | .ok (start_date, end_date) =>
    match runRows (processRecordsRow fmt coin start_date end_date) rows with
    | .error msg => .error msg
    | .ok ws => .ok (Written.header (headerFor fmt) :: ws)

/-- Mirrors `parse_staketax` in src/main.rs: resolve the window and stream
the rows; no header row is written by the source code of this pipeline. -/
def parse_staketax (fmt : OutputFormat) (coin : Coin) (yearOpt : Option Int)
    (currentYear : Int) (q : Quarter) (rows : List StakeTax) :
    Except String (List Written) :=
  match get_date_range yearOpt currentYear q with
  | .error msg => .error msg
  | .ok (start_date, end_date) =>
    runRows (processStakeTaxRow fmt coin start_date end_date) rows

/-- Mirrors `parse_kraken_file` in src/main.rs: resolve the window and
stream the rows; the run-level coin option is unused and no header row is
written by the source code of this pipeline. -/
def parse_kraken_file (fmt : OutputFormat) (yearOpt : Option Int)
    (currentYear : Int) (q : Quarter) (rows : List Kraken) :
    Except String (List Written) :=
  match get_date_range yearOpt currentYear q with
  | .error msg => .error msg
  | .ok (start_date, end_date) =>
    runRows (processKrakenRow fmt start_date end_date) rows

/-- Mirrors `bool_from_string` in src/formats.rs: lowercase the field and
map "true" to true, "" and "false" to false, anything else to a
deserialization error. -/
def bool_from_string (s : String) : Except String Bool :=
  match to_lowercase s with
  | "true" => .ok true
  | "" => .ok false
  | "false" => .ok false
  | other => .error ("invalid value: " ++ other ++ ", expected true or false")

theorem subscan_get_date (r : Subscan) : InputRecord.get_date r = r.date := rfl

theorem subscan_get_amount (r : Subscan) : InputRecord.get_amount r = r.amount := rfl

theorem kraken_get_date (r : Kraken) : InputRecord.get_date r = r.date := rfl

theorem staketax_get_date (r : StakeTax) :
    InputRecord.get_date r = r.timestamp := rfl

/-- C2: the date-range resolver maps each quarter selector of an explicit
year to exactly the fixed inclusive window of the table (start at midnight
of the first day, end at 23:59:59 of the last day), and it succeeds for
every year the date type can represent. -/
theorem get_date_range_quarter_table (y currentYear : Int)
    (hlo : -262144 ≤ y) (hhi : y ≤ 262143) :
    get_date_range (some y) currentYear .Q1 =
      .ok (⟨y, 1, 1, 0, 0, 0⟩, ⟨y, 3, 31, 23, 59, 59⟩) ∧
    get_date_range (some y) currentYear .Q2 =
      .ok (⟨y, 4, 1, 0, 0, 0⟩, ⟨y, 6, 30, 23, 59, 59⟩) ∧
    get_date_range (some y) currentYear .Q3 =
      .ok (⟨y, 7, 1, 0, 0, 0⟩, ⟨y, 9, 30, 23, 59, 59⟩) ∧
    get_date_range (some y) currentYear .Q4 =
      .ok (⟨y, 10, 1, 0, 0, 0⟩, ⟨y, 12, 31, 23, 59, 59⟩) ∧
    get_date_range (some y) currentYear .ALL =
      .ok (⟨y, 1, 1, 0, 0, 0⟩, ⟨y, 12, 31, 23, 59, 59⟩) := by
  refine ⟨?_, ?_, ?_, ?_, ?_⟩ <;>
    simp [get_date_range, NaiveDate.from_ymd_opt, NaiveDate.and_hms_opt,
      daysInMonth, hlo, hhi]

/-- Witness for C2 at the concrete year 2021. -/
theorem get_date_range_quarter_table_witness :
    get_date_range (some 2021) 0 .Q1 =
      .ok (⟨2021, 1, 1, 0, 0, 0⟩, ⟨2021, 3, 31, 23, 59, 59⟩) ∧
    get_date_range (some 2021) 0 .Q2 =
      .ok (⟨2021, 4, 1, 0, 0, 0⟩, ⟨2021, 6, 30, 23, 59, 59⟩) ∧
    get_date_range (some 2021) 0 .Q3 =
      .ok (⟨2021, 7, 1, 0, 0, 0⟩, ⟨2021, 9, 30, 23, 59, 59⟩) ∧
    get_date_range (some 2021) 0 .Q4 =
      .ok (⟨2021, 10, 1, 0, 0, 0⟩, ⟨2021, 12, 31, 23, 59, 59⟩) ∧
    get_date_range (some 2021) 0 .ALL =
      .ok (⟨2021, 1, 1, 0, 0, 0⟩, ⟨2021, 12, 31, 23, 59, 59⟩) :=
  get_date_range_quarter_table 2021 0 (by decide) (by decide)

/-- C4: the account label of a simple-income record is the string image of
the asset symbol followed by " STAKING"; the string image of DOT is the
quirk "DOT2" and every other symbol maps to its own name. -/
theorem bitcointax_account_label (date : NaiveDateTime) (volume : Rat)
    (c : Coin) :
    (BitcoinTax.create date volume c).account =
      (if c = Coin.DOT then "DOT2" else c.name) ++ " STAKING" ∧
    (BitcoinTax.create date volume Coin.DOT).account = "DOT2 STAKING" ∧
    (BitcoinTax.create date volume Coin.KSM).account = "KSM STAKING" := by
  refine ⟨?_, rfl, rfl⟩
  cases c <;> rfl

/-- C9: the derived amount of an aggregator-style record is the received
amount when present and exactly zero when missing, and it does not depend
on the sent-amount or fee fields; as a total function it never fails. -/
theorem staketax_get_amount_spec (r : StakeTax) :
    r.get_amount = r.received_amount.getD 0 ∧
    (∀ (sa fe : Option Rat),
      ({ r with sent_amount := sa, fee := fe } : StakeTax).get_amount =
        r.get_amount) := by
  constructor
  · rcases h : r.received_amount with _ | a <;>
      simp [StakeTax.get_amount, h]
  · intro sa fe
    rfl

/-- C8 counterexample: the string "True" is none of "true", "false", "",
yet it parses successfully (the source lowercases before matching), so the
taxable field does not reject every string outside those three values. -/
theorem bool_from_string_case_cx :
    bool_from_string "True" = Except.ok true ∧
    "True" ≠ "true" ∧ "True" ≠ "false" ∧ "True" ≠ "" :=
  ⟨rfl, by decide, by decide, by decide⟩

/-- C8 amended: the taxable parser lowercases its input first; it yields
true exactly when the lowercased string is "true", false exactly when it
is empty or "false", and a parse error for every other input. -/
theorem bool_from_string_spec (s : String) :
    (bool_from_string s = .ok true ↔ to_lowercase s = "true") ∧
    (bool_from_string s = .ok false ↔
      (to_lowercase s = "" ∨ to_lowercase s = "false")) ∧
    (exceptIsError (bool_from_string s) = true ↔
      (to_lowercase s ≠ "true" ∧ to_lowercase s ≠ "" ∧
        to_lowercase s ≠ "false")) := by
  unfold bool_from_string
  split
  case _ heq => simp [heq, exceptIsError]
  case _ heq => simp [heq, exceptIsError]
  case _ heq => simp [heq, exceptIsError]
  case _ x h1 h2 h3 =>
    refine ⟨⟨fun hc => Except.noConfusion hc, fun hc => absurd hc h1⟩,
      ⟨fun hc => Except.noConfusion hc,
        fun hc => hc.elim (fun h => absurd h h2) (fun h => absurd h h3)⟩,
      ⟨fun _ => ⟨h1, h2, h3⟩, fun _ => rfl⟩⟩

/-- C1: for any row of each of the three input variants whose timestamp
parses, a date strictly outside the inclusive window yields no output row
(silently, not an error), and a date inside the window — boundaries
included — passes to record construction, producing an output row whenever
the variant-specific label filter (and, for Kraken, symbol parsing and
schema support) allows one. -/
theorem date_window_inclusive (fmt : OutputFormat) (coin : Coin)
    (s e d : NaiveDateTime) :
    (∀ r : Subscan, parseDateTime r.date = some d →
      ((NaiveDateTime.le s d && NaiveDateTime.le d e) = false →
        processRecordsRow fmt coin s e r = .ok none) ∧
      ((NaiveDateTime.le s d && NaiveDateTime.le d e) = true →
        ∃ rec, processRecordsRow fmt coin s e r = .ok (some rec))) ∧
    (∀ r : StakeTax, parseDateTime r.timestamp = some d →
      ((NaiveDateTime.le s d && NaiveDateTime.le d e) = false →
        processStakeTaxRow fmt coin s e r = .ok none) ∧
      ((NaiveDateTime.le s d && NaiveDateTime.le d e) = true →
        r.tx_type = "STAKING" → fmt = .BitcoinTax →
        ∃ rec, processStakeTaxRow fmt coin s e r = .ok (some rec))) ∧
    (∀ (r : Kraken) (c : Coin), parseDateTime r.date = some d →
      ((NaiveDateTime.le s d && NaiveDateTime.le d e) = false →
        processKrakenRow fmt s e r = .ok none) ∧
      ((NaiveDateTime.le s d && NaiveDateTime.le d e) = true →
        r.action = "staking" → Coin.fromStrOpt r.asset = some c →
        fmt = .BitcoinTax →
        ∃ rec, processKrakenRow fmt s e r = .ok (some rec))) := by
  refine ⟨fun r hd => ⟨fun hw => ?_, fun hw => ?_⟩,
    fun r hd => ⟨fun hw => ?_, ?_⟩,
    fun r c hd => ⟨fun hw => ?_, ?_⟩⟩
  · simp [processRecordsRow, subscan_get_date, hd, hw]
  · cases fmt <;>
      simp [processRecordsRow, subscan_get_date, hd, hw]
  · simp [processStakeTaxRow, staketax_get_date, hd, hw]
  · rintro hw ht rfl
    have hb : (r.tx_type == "STAKING") = true := by simp [ht]
    simp [processStakeTaxRow, staketax_get_date, hd, hw, hb]
  · simp [processKrakenRow, kraken_get_date, hd, hw]
  · rintro hw ha hc rfl
    have hb : (r.action == "staking") = true := by simp [ha]
    simp [processKrakenRow, kraken_get_date, hd, hw, hb, hc]

/-- Witness for C1 at the Q1-2021 window: a row at exactly the start
boundary and one at exactly the end boundary each produce an output row,
and a row one second past the end produces none. -/
theorem date_window_inclusive_witness :
    (∃ rec, processRecordsRow .BitcoinTax Coin.DOT ⟨2021, 1, 1, 0, 0, 0⟩
      ⟨2021, 3, 31, 23, 59, 59⟩
      (⟨"", "2021-01-01 00:00:00", 0, "", 7, "x"⟩ : Subscan) =
      .ok (some rec)) ∧
    (∃ rec, processRecordsRow .BitcoinTax Coin.DOT ⟨2021, 1, 1, 0, 0, 0⟩
      ⟨2021, 3, 31, 23, 59, 59⟩
      (⟨"", "2021-03-31 23:59:59", 0, "", 7, "x"⟩ : Subscan) =
      .ok (some rec)) ∧
    processRecordsRow .BitcoinTax Coin.DOT ⟨2021, 1, 1, 0, 0, 0⟩
      ⟨2021, 3, 31, 23, 59, 59⟩
      (⟨"", "2021-04-01 00:00:00", 0, "", 7, "x"⟩ : Subscan) = .ok none :=
  ⟨((date_window_inclusive .BitcoinTax Coin.DOT ⟨2021, 1, 1, 0, 0, 0⟩
      ⟨2021, 3, 31, 23, 59, 59⟩ ⟨2021, 1, 1, 0, 0, 0⟩).1
      ⟨"", "2021-01-01 00:00:00", 0, "", 7, "x"⟩ rfl).2 (by decide),
   ((date_window_inclusive .BitcoinTax Coin.DOT ⟨2021, 1, 1, 0, 0, 0⟩
      ⟨2021, 3, 31, 23, 59, 59⟩ ⟨2021, 3, 31, 23, 59, 59⟩).1
      ⟨"", "2021-03-31 23:59:59", 0, "", 7, "x"⟩ rfl).2 (by decide),
   ((date_window_inclusive .BitcoinTax Coin.DOT ⟨2021, 1, 1, 0, 0, 0⟩
      ⟨2021, 3, 31, 23, 59, 59⟩ ⟨2021, 4, 1, 0, 0, 0⟩).1
      ⟨"", "2021-04-01 00:00:00", 0, "", 7, "x"⟩ rfl).1 (by decide)⟩

/-- C6: an in-window Kraken row is skipped silently (no output, no error)
exactly when its type label differs from the exact, case-sensitive string
"staking". -/
theorem kraken_staking_label_filter (fmt : OutputFormat)
    (s e : NaiveDateTime) (r : Kraken) (d : NaiveDateTime)
    (hd : parseDateTime r.date = some d)
    (hw : (NaiveDateTime.le s d && NaiveDateTime.le d e) = true) :
    processKrakenRow fmt s e r = .ok none ↔ r.action ≠ "staking" := by
  by_cases ha : r.action = "staking"
  · have hb : (r.action == "staking") = true := by simp [ha]
    rcases hc : Coin.fromStrOpt r.asset with _ | c
    · cases fmt <;>
        simp [processKrakenRow, kraken_get_date, hd, hw, hb, hc, ha]
    · cases fmt <;>
        simp [processKrakenRow, kraken_get_date, hd, hw, hb, hc, ha]
  · have hb : (r.action == "staking") = false := by
      simp [ha]
    simp [processKrakenRow, kraken_get_date, hd, hw, hb, ha]

/-- Witness for C6: an in-window row labelled "Staking" (capitalized) is
silently skipped. -/
theorem kraken_staking_label_filter_witness :
    processKrakenRow .BitcoinTax ⟨2021, 1, 1, 0, 0, 0⟩
      ⟨2021, 12, 31, 23, 59, 59⟩
      (⟨"t", "r", "2021-05-01 12:00:00", "Staking", "c", "dot", 5, 0⟩ :
        Kraken) = .ok none :=
  (kraken_staking_label_filter .BitcoinTax ⟨2021, 1, 1, 0, 0, 0⟩
    ⟨2021, 12, 31, 23, 59, 59⟩
    ⟨"t", "r", "2021-05-01 12:00:00", "Staking", "c", "dot", 5, 0⟩
    ⟨2021, 5, 1, 12, 0, 0⟩ rfl (by decide)).mpr (by decide)

/-- C7: a StakeTax row yields an output record exactly when its date is in
the window and its transaction type is the exact, case-sensitive string
"STAKING"; the taxable field has no influence on the result at all. -/
theorem staketax_accept_iff (coin : Coin) (s e : NaiveDateTime)
    (r : StakeTax) (d : NaiveDateTime)
    (hd : parseDateTime r.timestamp = some d) :
    ((∃ rec, processStakeTaxRow .BitcoinTax coin s e r = .ok (some rec)) ↔
      ((NaiveDateTime.le s d && NaiveDateTime.le d e) = true ∧
        r.tx_type = "STAKING")) ∧
    (∀ (fmt : OutputFormat) (b : Bool),
      processStakeTaxRow fmt coin s e { r with taxable := b } =
        processStakeTaxRow fmt coin s e r) := by
  constructor
  · by_cases ht : r.tx_type = "STAKING"
    · have hb : (r.tx_type == "STAKING") = true := by simp [ht]
      rcases hw : (NaiveDateTime.le s d && NaiveDateTime.le d e) with _ | _
      · simp [processStakeTaxRow, staketax_get_date, hd, hw, hb, ht]
      · simp [processStakeTaxRow, staketax_get_date, hd, hw, hb, ht]
    · have hb : (r.tx_type == "STAKING") = false := by simp [ht]
      rcases hw : (NaiveDateTime.le s d && NaiveDateTime.le d e) with _ | _
      · simp [processStakeTaxRow, staketax_get_date, hd, hw, hb, ht]
      · simp [processStakeTaxRow, staketax_get_date, hd, hw, hb, ht]
  · intro fmt b
    rfl

/-- Witness for C7: an in-window STAKING row produces an output record,
and flipping its taxable flag changes nothing. -/
theorem staketax_accept_iff_witness :
    (∃ rec, processStakeTaxRow .BitcoinTax Coin.DOT ⟨2021, 1, 1, 0, 0, 0⟩
      ⟨2021, 12, 31, 23, 59, 59⟩
      (⟨"2021-05-01 12:00:00", "STAKING", false, some 5, "DOT", none, "",
        none, "", "", "tx", "u", "ex", "w"⟩ : StakeTax) =
      .ok (some rec)) ∧
    processStakeTaxRow .BitcoinTax Coin.DOT ⟨2021, 1, 1, 0, 0, 0⟩
      ⟨2021, 12, 31, 23, 59, 59⟩
      { (⟨"2021-05-01 12:00:00", "STAKING", false, some 5, "DOT", none, "",
          none, "", "", "tx", "u", "ex", "w"⟩ : StakeTax) with
        taxable := true } =
    processStakeTaxRow .BitcoinTax Coin.DOT ⟨2021, 1, 1, 0, 0, 0⟩
      ⟨2021, 12, 31, 23, 59, 59⟩
      (⟨"2021-05-01 12:00:00", "STAKING", false, some 5, "DOT", none, "",
        none, "", "", "tx", "u", "ex", "w"⟩ : StakeTax) :=
  ⟨(staketax_accept_iff Coin.DOT ⟨2021, 1, 1, 0, 0, 0⟩
      ⟨2021, 12, 31, 23, 59, 59⟩
      ⟨"2021-05-01 12:00:00", "STAKING", false, some 5, "DOT", none, "",
        none, "", "", "tx", "u", "ex", "w"⟩
      ⟨2021, 5, 1, 12, 0, 0⟩ rfl).1.mpr ⟨by decide, rfl⟩,
   (staketax_accept_iff Coin.DOT ⟨2021, 1, 1, 0, 0, 0⟩
      ⟨2021, 12, 31, 23, 59, 59⟩
      ⟨"2021-05-01 12:00:00", "STAKING", false, some 5, "DOT", none, "",
        none, "", "", "tx", "u", "ex", "w"⟩
      ⟨2021, 5, 1, 12, 0, 0⟩ rfl).2 .BitcoinTax true⟩

/-- C10: a Kraken row that fails the date-window or type-label test is
skipped with the asset-symbol field never parsed: for any symbol string,
including unrecognizable ones, the result is a silent skip, not an
error. -/
theorem kraken_symbol_after_filter (fmt : OutputFormat)
    (s e : NaiveDateTime) (r : Kraken) (d : NaiveDateTime)
    (hd : parseDateTime r.date = some d)
    (hskip : (NaiveDateTime.le s d && NaiveDateTime.le d e
      && (r.action == "staking")) = false) :
    ∀ sym : String,
      processKrakenRow fmt s e { r with asset := sym } = .ok none := by
  intro sym
  simp [processKrakenRow, kraken_get_date, hd, hskip]

/-- Witness for C10: an out-of-window staking row carrying the unknown
symbol "doge" is skipped without error. -/
theorem kraken_symbol_after_filter_witness :
    processKrakenRow .BitcoinTax ⟨2021, 1, 1, 0, 0, 0⟩
      ⟨2021, 12, 31, 23, 59, 59⟩
      { (⟨"t", "r", "2022-05-01 12:00:00", "staking", "c", "dot", 5, 0⟩ :
          Kraken) with asset := "doge" } = .ok none :=
  kraken_symbol_after_filter .BitcoinTax ⟨2021, 1, 1, 0, 0, 0⟩
    ⟨2021, 12, 31, 23, 59, 59⟩
    ⟨"t", "r", "2022-05-01 12:00:00", "staking", "c", "dot", 5, 0⟩
    ⟨2022, 5, 1, 12, 0, 0⟩ rfl (by decide) "doge"

theorem runRows_error_iff {α : Type}
    (f : α → Except String (Option OutputRecord)) (rows : List α) :
    exceptIsError (runRows f rows) = true ↔
      ∃ r ∈ rows, exceptIsError (f r) = true := by
  induction rows with
  | nil => simp [runRows, exceptIsError]
  | cons r rs ih =>
    simp only [runRows]
    rcases hf : f r with msg | rec
    · simp [exceptIsError, hf]
    · rcases rec with _ | rec
      · rw [ih]
        constructor
        · rintro ⟨x, hx, he⟩
          exact ⟨x, List.mem_cons_of_mem r hx, he⟩
        · rintro ⟨x, hx, he⟩
          rcases List.mem_cons.mp hx with h | h
          · subst h
            rw [hf] at he
            exact absurd he (by simp [exceptIsError])
          · exact ⟨x, h, he⟩
      · rcases hrs : runRows f rs with msg | ws
        · have : ∃ x ∈ rs, exceptIsError (f x) = true := by
            rw [← ih, hrs]
            rfl
          rcases this with ⟨x, hx, he⟩
          simp only [exceptIsError]
          constructor
          · intro _
            exact ⟨x, List.mem_cons_of_mem r hx, he⟩
          · intro _
            simp [hrs, exceptIsError]
        · have hno : ¬∃ x ∈ rs, exceptIsError (f x) = true := by
            rw [← ih, hrs]
            simp [exceptIsError]
          simp only [exceptIsError]
          constructor
          · intro hc
            exact absurd hc (by simp)
          · rintro ⟨x, hx, he⟩
            rcases List.mem_cons.mp hx with h | h
            · subst h
              rw [hf] at he
              exact absurd he (by simp [exceptIsError])
            · exact absurd ⟨x, h, he⟩ hno

theorem processStakeTaxRow_ct_error (coin : Coin) (s e : NaiveDateTime)
    (r : StakeTax) (d : NaiveDateTime)
    (hd : parseDateTime r.timestamp = some d) :
    exceptIsError (processStakeTaxRow .CoinTracking coin s e r) = true ↔
      (NaiveDateTime.le s d && NaiveDateTime.le d e
        && (r.tx_type == "STAKING")) = true := by
  rcases hcond : (NaiveDateTime.le s d && NaiveDateTime.le d e
      && (r.tx_type == "STAKING")) with _ | _ <;>
    simp [processStakeTaxRow, staketax_get_date, hd, hcond, exceptIsError]

theorem processKrakenRow_ct_error (s e : NaiveDateTime) (r : Kraken)
    (d : NaiveDateTime) (hd : parseDateTime r.date = some d) :
    exceptIsError (processKrakenRow .CoinTracking s e r) = true ↔
      (NaiveDateTime.le s d && NaiveDateTime.le d e
        && (r.action == "staking")) = true := by
  rcases hcond : (NaiveDateTime.le s d && NaiveDateTime.le d e
      && (r.action == "staking")) with _ | _
  · simp [processKrakenRow, kraken_get_date, hd, hcond, exceptIsError]
  · rcases hc : Coin.fromStrOpt r.asset with _ | c <;>
      simp [processKrakenRow, kraken_get_date, hd, hcond, hc, exceptIsError]

/-- C5: selecting the ledger-style (CoinTracking) schema with the StakeTax
or Kraken input variant is not rejected at startup; the run fails exactly
when at least one row passes the date-window and acceptance predicate
(filtering happens before the unsupported-combination panic is reached). -/
theorem cointracking_unsupported_lazy (coin : Coin) (yearOpt : Option Int)
    (currentYear : Int) (q : Quarter) (s e : NaiveDateTime)
    (rowsST : List StakeTax) (rowsKR : List Kraken)
    (hdr : get_date_range yearOpt currentYear q = .ok (s, e))
    (hst : ∀ r ∈ rowsST, (parseDateTime r.timestamp).isSome = true)
    (hkr : ∀ r ∈ rowsKR, (parseDateTime r.date).isSome = true) :
    (exceptIsError
        (parse_staketax .CoinTracking coin yearOpt currentYear q rowsST) =
        true ↔
      ∃ r ∈ rowsST, ∃ d, parseDateTime r.timestamp = some d ∧
        (NaiveDateTime.le s d && NaiveDateTime.le d e
          && (r.tx_type == "STAKING")) = true) ∧
    (exceptIsError
        (parse_kraken_file .CoinTracking yearOpt currentYear q rowsKR) =
        true ↔
      ∃ r ∈ rowsKR, ∃ d, parseDateTime r.date = some d ∧
        (NaiveDateTime.le s d && NaiveDateTime.le d e
          && (r.action == "staking")) = true) := by
  constructor
  · have hrun : parse_staketax .CoinTracking coin yearOpt currentYear q rowsST =
        runRows (processStakeTaxRow .CoinTracking coin s e) rowsST := by
      simp [parse_staketax, hdr]
    rw [hrun, runRows_error_iff]
    constructor
    · rintro ⟨r, hr, he⟩
      rcases hd : parseDateTime r.timestamp with _ | d
      · have := hst r hr
        rw [hd] at this
        exact absurd this (by simp)
      · exact ⟨r, hr, d, hd,
          (processStakeTaxRow_ct_error coin s e r d hd).mp he⟩
    · rintro ⟨r, hr, d, hd, hcond⟩
      exact ⟨r, hr, (processStakeTaxRow_ct_error coin s e r d hd).mpr hcond⟩
  · have hrun : parse_kraken_file .CoinTracking yearOpt currentYear q rowsKR =
        runRows (processKrakenRow .CoinTracking s e) rowsKR := by
      simp [parse_kraken_file, hdr]
    rw [hrun, runRows_error_iff]
    constructor
    · rintro ⟨r, hr, he⟩
      rcases hd : parseDateTime r.date with _ | d
      · have := hkr r hr
        rw [hd] at this
        exact absurd this (by simp)
      · exact ⟨r, hr, d, hd,
          (processKrakenRow_ct_error s e r d hd).mp he⟩
    · rintro ⟨r, hr, d, hd, hcond⟩
      exact ⟨r, hr, (processKrakenRow_ct_error s e r d hd).mpr hcond⟩

/-- Witness for C5: one accepted StakeTax row makes the CoinTracking run
fail, while an empty Kraken input makes the CoinTracking run succeed. -/
theorem cointracking_unsupported_lazy_witness :
    (exceptIsError (parse_staketax .CoinTracking Coin.DOT (some 2021) 0
        .ALL
        [⟨"2021-05-01 12:00:00", "STAKING", false, some 5, "DOT", none, "",
          none, "", "", "tx", "u", "ex", "w"⟩]) = true ↔
      ∃ r ∈ [(⟨"2021-05-01 12:00:00", "STAKING", false, some 5, "DOT",
          none, "", none, "", "", "tx", "u", "ex", "w"⟩ : StakeTax)],
        ∃ d, parseDateTime r.timestamp = some d ∧
          (NaiveDateTime.le ⟨2021, 1, 1, 0, 0, 0⟩ d
            && NaiveDateTime.le d ⟨2021, 12, 31, 23, 59, 59⟩
            && (r.tx_type == "STAKING")) = true) ∧
    (exceptIsError (parse_kraken_file .CoinTracking (some 2021) 0 .ALL []) =
        true ↔
      ∃ r ∈ ([] : List Kraken), ∃ d, parseDateTime r.date = some d ∧
        (NaiveDateTime.le ⟨2021, 1, 1, 0, 0, 0⟩ d
          && NaiveDateTime.le d ⟨2021, 12, 31, 23, 59, 59⟩
          && (r.action == "staking")) = true) :=
  cointracking_unsupported_lazy Coin.DOT (some 2021) 0 .ALL
    ⟨2021, 1, 1, 0, 0, 0⟩ ⟨2021, 12, 31, 23, 59, 59⟩
    [⟨"2021-05-01 12:00:00", "STAKING", false, some 5, "DOT", none, "",
      none, "", "", "tx", "u", "ex", "w"⟩] [] rfl
    (by
      intro r hr
      rcases List.mem_singleton.mp hr with rfl
      rfl)
    (by
      intro r hr
      exact absurd hr (List.not_mem_nil r))

theorem runRows_ok_records {α : Type}
    (f : α → Except String (Option OutputRecord)) (rows : List α)
    (ws : List Written) (h : runRows f rows = .ok ws) :
    ∀ w ∈ ws, Written.isHeaderRow w = false := by
  induction rows generalizing ws with
  | nil =>
    simp only [runRows] at h
    injection h with h
    subst h
    intro w hw
    exact absurd hw (List.not_mem_nil w)
  | cons r rs ih =>
    simp only [runRows] at h
    rcases hf : f r with msg | rec
    · rw [hf] at h
      simp at h
    · rcases rec with _ | rec
      · rw [hf] at h
        exact ih ws h
      · rw [hf] at h
        rcases hrs : runRows f rs with msg | ws2
        · rw [hrs] at h
          simp at h
        · rw [hrs] at h
          injection h with h
          subst h
          intro w hw
          rcases List.mem_cons.mp hw with h | h
          · subst h
            rfl
          · exact ih ws2 hrs w h

/-- C3 counterexample: a StakeTax run that accepts one row writes only the
serialized data record — its first (and only) output row is not a header
row, so not every pipeline writes a schema header before the data rows. -/
theorem pipeline_header_cx :
    parse_staketax .BitcoinTax Coin.DOT (some 2021) 0 .ALL
      [⟨"2021-05-01 12:00:00", "STAKING", false, some 5, "DOT", none, "",
        none, "", "", "tx", "u", "ex", "w"⟩] =
      .ok [Written.record (OutputRecord.BT
        (BitcoinTax.create ⟨2021, 5, 1, 12, 0, 0⟩ 5 Coin.DOT))] ∧
    Written.isHeaderRow (Written.record (OutputRecord.BT
      (BitcoinTax.create ⟨2021, 5, 1, 12, 0, 0⟩ 5 Coin.DOT))) = false :=
  ⟨rfl, rfl⟩

/-- C3 amended: only the Subscan pipeline (`parse_records`) writes a
header row — matching the chosen schema exactly, "Date,Action,Account,
Symbol,Volume" for simple income — before the data rows; the StakeTax and
Kraken pipelines write no header row at all: every row of their successful
output is a serialized data record. -/
theorem pipeline_header_rows (fmt : OutputFormat) (coin : Coin)
    (yearOpt : Option Int) (currentYear : Int) (q : Quarter) :
    headerFor .BitcoinTax = ["Date", "Action", "Account", "Symbol",
      "Volume"] ∧
    (∀ (α : Type) (inst : InputRecord α) (rows : List α)
      (out : List Written),
      @parse_records α inst fmt coin yearOpt currentYear q rows = .ok out →
      out.head? = some (.header (headerFor fmt))) ∧
    (∀ (rows : List StakeTax) (out : List Written),
      parse_staketax fmt coin yearOpt currentYear q rows = .ok out →
      ∀ w ∈ out, Written.isHeaderRow w = false) ∧
    (∀ (rows : List Kraken) (out : List Written),
      parse_kraken_file fmt yearOpt currentYear q rows = .ok out →
      ∀ w ∈ out, Written.isHeaderRow w = false) := by
  refine ⟨rfl, ?_, ?_, ?_⟩
  · intro α inst rows out h
    rcases hdr : get_date_range yearOpt currentYear q with msg | ⟨s, e⟩
    · have hpr : @parse_records α inst fmt coin yearOpt currentYear q rows =
          .error msg := by
        simp [parse_records, hdr]
      rw [hpr] at h
      exact Except.noConfusion h
    · have hpr : @parse_records α inst fmt coin yearOpt currentYear q rows =
          match runRows (processRecordsRow fmt coin s e) rows with
          | .error msg => .error msg
          | .ok ws => .ok (Written.header (headerFor fmt) :: ws) := by
        simp [parse_records, hdr]
      rw [hpr] at h
      rcases hrun : runRows (processRecordsRow fmt coin s e) rows
          with msg | ws
      · rw [hrun] at h
        simp at h
      · rw [hrun] at h
        simp only [Except.ok.injEq] at h
        subst h
        rfl
  · intro rows out h
    rcases hdr : get_date_range yearOpt currentYear q with msg | ⟨s, e⟩
    · have hps : parse_staketax fmt coin yearOpt currentYear q rows =
          .error msg := by
        simp [parse_staketax, hdr]
      rw [hps] at h
      exact Except.noConfusion h
    · have hps : parse_staketax fmt coin yearOpt currentYear q rows =
          runRows (processStakeTaxRow fmt coin s e) rows := by
        simp [parse_staketax, hdr]
      rw [hps] at h
      exact runRows_ok_records _ rows out h
  · intro rows out h
    rcases hdr : get_date_range yearOpt currentYear q with msg | ⟨s, e⟩
    · have hpk : parse_kraken_file fmt yearOpt currentYear q rows =
          .error msg := by
        simp [parse_kraken_file, hdr]
      rw [hpk] at h
      exact Except.noConfusion h
    · have hpk : parse_kraken_file fmt yearOpt currentYear q rows =
          runRows (processKrakenRow fmt s e) rows := by
        simp [parse_kraken_file, hdr]
      rw [hpk] at h
      exact runRows_ok_records _ rows out h

/-- Witness for the amended C3: a Subscan run begins with the simple
income header, and the single output row of an accepting StakeTax run is
not a header row. -/
theorem pipeline_header_rows_witness :
    ([Written.header ["Date", "Action", "Account", "Symbol", "Volume"]] :
        List Written).head? =
      some (Written.header (headerFor .BitcoinTax)) ∧
    Written.isHeaderRow (Written.record (OutputRecord.BT
      (BitcoinTax.create ⟨2021, 5, 1, 12, 0, 0⟩ 5 Coin.DOT))) = false :=
  ⟨(pipeline_header_rows .BitcoinTax Coin.DOT (some 2021) 0 .ALL).2.1
      Subscan inferInstance []
      [Written.header ["Date", "Action", "Account", "Symbol", "Volume"]]
      rfl,
   (pipeline_header_rows .BitcoinTax Coin.DOT (some 2021) 0 .ALL).2.2.1
      [⟨"2021-05-01 12:00:00", "STAKING", false, some 5, "DOT", none, "",
        none, "", "", "tx", "u", "ex", "w"⟩]
      [Written.record (OutputRecord.BT
        (BitcoinTax.create ⟨2021, 5, 1, 12, 0, 0⟩ 5 Coin.DOT))] rfl
      (Written.record (OutputRecord.BT
        (BitcoinTax.create ⟨2021, 5, 1, 12, 0, 0⟩ 5 Coin.DOT)))
      (List.mem_singleton.mpr rfl)⟩
